import Mathlib

/-!
Verification of the mininet CLI broker (`mininet/cli.py`).

This file shallowly embeds the parts of `CLI` that the specification talks
about: name resolution across several simultaneously active topologies
(`CLI.default`'s ascending-index scans), in-argument address substitution
(the `rest[rest.index(arg)] = ...updateIP()` loop), the readiness-driven
output loop `CLI.waitForNode`, the startup drain in `CLI.__init__`, script
execution via `CLI.do_source`, and the Python-semantics quirk that
`CLI.isatty` is a generator function.

Conventions of the embedding:
* Endpoint processes ("nodes") are modelled by their broker-visible state:
  a name, the current primary address returned by `defaultIntf().updateIP()`,
  the `waiting` flag, and a finite script of future `monitor()` results.
* The blocking readiness multiplexer is driven by a finite list of poll
  events; when the list is exhausted while the real loop would still block,
  the run is marked `stuck` (the real program blocks forever there) and no
  further input is processed.
* Side effects are recorded in an event trace (`Ev`); the controlling
  terminal's mode is explicit state mutated by the `stty` calls the code
  issues through `quietRun`.
-/

/-- Python values relevant to the `self.isatty()` guards. -/
inductive PyValue
  | pyNone
  | pyBool (b : Bool)
  | pyGen
deriving DecidableEq, Repr

/-- Python truthiness: `None` is falsy, booleans are themselves, and a
generator object is truthy (generators define neither `__bool__` nor
`__len__`). -/
def pyTruthy : PyValue → Bool
  | .pyNone => false
  | .pyBool b => b
  | .pyGen => true

/-- `CLI.isatty`'s body contains `yield`, so Python treats the method as a
generator function: a call returns a generator object without executing the
body at all (hence the body's reference to the nonexistent attribute
`self.mininet` never raises).  The argument is the actual tty status of the
broker's standard input, which the bare call completely ignores. -/
def isattyGen (_actualTTY : Bool) : PyValue := PyValue.pyGen

/-- The terminal settings toggled by the `stty` invocations in `cli.py`. -/
structure TermMode where
  icanon : Bool
  echo : Bool
deriving DecidableEq, Repr

/-- The four `stty` command lines the source runs via `quietRun`. -/
inductive SttyCmd
  | sane
  | rawMin1
  | noEcho
  | echoOn
deriving DecidableEq, Repr

/-- Effect of each `stty` call on the terminal mode. -/
def applyStty (m : TermMode) : SttyCmd → TermMode
  | .sane => ⟨true, true⟩
  | .rawMin1 => { m with icanon := false }
  | .noEcho => { m with echo := false }
  | .echoOn => { m with echo := true }

/-- One future result of `node.monitor()`: the data it returns and whether
this monitor call observes command completion and clears `node.waiting`. -/
structure MonitorEv where
  data : String
  clears : Bool
deriving DecidableEq, Repr

/-- Broker-visible state of one endpoint process. -/
structure Node where
  name : String
  ip : String
  waiting : Bool
  outScript : List MonitorEv
deriving DecidableEq, Repr

/-- Trace of the externally visible actions the broker performs. -/
inductive Ev
  | sendCmd (node : String) (cmd : String) (printPid : Bool)
  | sendInt (node : String)
  | monitor (node : String) (data : String)
  | write (node : String) (key : String)
  | updateIP (node : String) (ip : String)
  | stty (c : SttyCmd)
  | outp (s : String)
  | err (s : String)
  | passthru (cmd : String) (args : String)
deriving DecidableEq, Repr

/-- `self.nodemap[index]` is a Python dict built by successive insertion
(`self.nodemap[index][node.name] = node`), so on a duplicate name the later
node overrides the earlier one: membership lookup returns the last match. -/
def dictLookup (t : List Node) (nm : String) : Option Node :=
  t.reverse.find? (fun n => n.name == nm)

/-- The ascending-index scan both loops of `CLI.default` perform: try
topology 0, then 1, ... and return the first topology whose nodemap contains
the name (`for index in range(0, len(self.nodemap)): if first in
self.nodemap[index]: ... break`). -/
def resolveAny (topos : List (List Node)) (nm : String) : Option (Nat × Node) :=
  match topos with
  | [] => none
  | t :: ts =>
    match dictLookup t nm with
    | some n => some (0, n)
    | none => (resolveAny ts nm).map (fun p => (p.1 + 1, p.2))

/-- One wake-up of the blocking `bothPoller.poll()` in `CLI.waitForNode`:
either a `KeyboardInterrupt` was delivered during the iteration, or some of
the registered streams are readable (a single key on the controlling stdin,
and/or the node's stdout). -/
structure PollEv where
  interrupted : Bool
  stdinReady : Option String
  nodeReady : Bool
deriving DecidableEq, Repr

/-- `node.monitor()`: consume the next scripted output chunk; completion
clears the waiting flag.  With nothing scripted it returns empty data and
leaves the flag alone. -/
def monitorStep (n : Node) : Node × List Ev :=
  match n.outScript with
  | [] => (n, [Ev.monitor n.name "", Ev.outp ""])
  | m :: rest =>
    ({ n with outScript := rest, waiting := n.waiting && !m.clears },
     [Ev.monitor n.name m.data, Ev.outp m.data])

/-- The body of one non-interrupted iteration of the `while True` loop in
`CLI.waitForNode`, after `poll()` returns: forward one key of readable stdin
to the node, then drain readable node output via `monitor()`.  (The
`if False and self.inputFile:` block above it in the source is dead code and
has no effect.) -/
def stepOf (n : Node) (e : PollEv) : Node × List Ev :=
  let tr1 : List Ev :=
    match e.stdinReady with
    | some k => [Ev.write n.name k]
    | none => []
  let n2 := if e.nodeReady then (monitorStep n).1 else n
  let tr2 := if e.nodeReady then (monitorStep n).2 else []
  (n2, tr1 ++ tr2)

/-- Result of running the `waitForNode` polling loop. -/
structure LoopRes where
  node : Node
  trace : List Ev
  stuck : Bool
deriving DecidableEq, Repr

/-- The `while True` loop of `CLI.waitForNode`.  A `KeyboardInterrupt`
raised during an iteration skips to the `except` handler, which calls
`node.sendInt()` and continues the loop (no waiting check happens on that
iteration).  A normal iteration handles readiness and then breaks iff
`node.waiting` is observed false.  If the event supply is exhausted, the
real loop is blocked in `poll()` forever: the run is marked stuck. -/
def wfnLoop : Node → List PollEv → LoopRes
  | n, [] => ⟨n, [], true⟩
  | n, e :: evs =>
    if e.interrupted then
      let r := wfnLoop n evs
      ⟨r.node, Ev.sendInt n.name :: r.trace, r.stuck⟩
    else
      let n2 := (stepOf n e).1
      let tr := (stepOf n e).2
      if n2.waiting then
        let r := wfnLoop n2 evs
        ⟨r.node, tr ++ r.trace, r.stuck⟩
      else ⟨n2, tr, false⟩

/-- Result of `CLI.waitForNode`, including the terminal mode it leaves. -/
structure WfnRes where
  node : Node
  mode : TermMode
  trace : List Ev
  stuck : Bool
deriving DecidableEq, Repr

/-- `CLI.waitForNode`: on entry, `if self.isatty(): quietRun('stty -icanon
min 1')` — the guard is a bare generator call, hence truthy — then the
polling loop.  Nothing after the loop touches the terminal mode. -/
def waitForNode (tty : Bool) (n : Node) (mode : TermMode) (evs : List PollEv) : WfnRes :=
  let g := pyTruthy (isattyGen tty)
  let mode1 := if g then applyStty mode SttyCmd.rawMin1 else mode
  let trEntry : List Ev := if g then [Ev.stty SttyCmd.rawMin1] else []
  let r := wfnLoop n evs
  ⟨r.node, mode1, trEntry ++ r.trace, r.stuck⟩

/-- Whole-broker state.  `topos` is the parallel array of per-topology node
collections (`self.nodelist` / `self.nodemap`); `pollSupply` is the global
supply of poll-event scripts, one consumed per `waitForNode` invocation;
`files` is the filesystem visible to `do_source` as lists of
newline-terminated lines; `sentWhileWaiting` instruments the single
`sendCmd` site with the waiting flag observed there; `stuck` records that
the real program is blocked (so nothing further executes). -/
structure BrokerSt where
  topos : List (List Node)
  mode : TermMode
  trace : List Ev
  pollSupply : List (List PollEv)
  files : List (String × List String)
  stdinIsTTY : Bool
  sentWhileWaiting : Bool
  stuck : Bool
deriving DecidableEq, Repr

/-- Python `str.strip()` on a character list (kernel-computable). -/
def stripChars (cs : List Char) : List Char :=
  ((cs.dropWhile Char.isWhitespace).reverse.dropWhile Char.isWhitespace).reverse

/-- Python `str.strip()`. -/
def pyStrip (s : String) : String := String.mk (stripChars s.data)

/-- Split a character list at every character satisfying `p`, keeping empty
pieces (the semantics of Python's `str.split(' ')` with an explicit
separator). -/
def splitOnPred (p : Char → Bool) : List Char → List (List Char)
  | [] => [[]]
  | c :: cs =>
    match splitOnPred p cs with
    | [] => [[]]
    | g :: gs => if p c then [] :: g :: gs else (c :: g) :: gs

/-- Python `args.split(' ')`: split at every single space, keeping empty
pieces. -/
def pySplitSpace (s : String) : List String :=
  (splitOnPred (fun c => c = ' ') s.data).map String.mk

/-- Python's whitespace `str.split()` (used by `do_source` on its argument
line): split on whitespace, dropping empty pieces. -/
def pySplitWs (s : String) : List String :=
  ((splitOnPred Char.isWhitespace s.data).map String.mk).filter (fun x => x ≠ "")

/-- Python `' '.join(rest)`. -/
def joinSpace : List String → String
  | [] => ""
  | [s] => s
  | s :: ss => s ++ " " ++ joinSpace ss

/-- Modelled from the spec: the `Cmd.parseline` used by this fork lives in
`mininet.utilib` (not under `src/`); §4.2 of the spec describes it as
extracting "the first whitespace-delimited token as the command selector and
the remainder as the argument line", with trailing newlines stripped and an
empty line yielding no selector. -/
def parseline (line : String) : Option String × String :=
  let l := stripChars line.data
  if l = [] then (none, "")
  else
    let tok := l.takeWhile (fun c => !c.isWhitespace)
    let rest := stripChars (l.drop tok.length)
    (some (String.mk tok), String.mk rest)

/-- The trailing-newline strip in `CLI.default` (`if args and len(args) > 0
and args[-1] == '\n': args = args[:-1]`). -/
def stripTrailingNewline (s : String) : String :=
  match s.data.getLast? with
  | some c => if c = '\n' then String.mk s.data.dropLast else s
  | none => s

/-- `allClear` holds when no endpoint of any topology has a command
outstanding. -/
def allClear (topos : List (List Node)) : Bool :=
  topos.all (fun t => t.all (fun n => !n.waiting))

/-- Replace, in topology `i`, every node named `nm` by `m` (the broker's
write-back of the node object it mutated). -/
def updateNode : List (List Node) → Nat → String → Node → List (List Node)
  | [], _, _, _ => []
  | t :: ts, 0, nm, m => t.map (fun x => if x.name = nm then m else x) :: ts
  | t :: ts, i + 1, nm, m => t :: updateNode ts i nm m

/-- Take the next poll-event script from the supply. -/
def popSupply : List (List PollEv) → List PollEv × List (List PollEv)
  | [] => ([], [])
  | e :: r => (e, r)

/-- One step of the address-substitution loop of `CLI.default` at position
`k`: take the CURRENT token at `k`, and if it resolves to a node in some
topology (ascending scan with `break`), overwrite the FIRST occurrence of
that token value (`rest[rest.index(arg)] = ...`) with the node's freshly
refreshed primary address. -/
def substStep (topos : List (List Node)) (rest : List String) (k : Nat) :
    List String × List Ev :=
  match rest.get? k with
  | none => (rest, [])
  | some arg =>
    match resolveAny topos arg with
    | none => (rest, [])
    | some (_, n2) =>
      (rest.set (rest.indexOf arg) n2.ip, [Ev.updateIP n2.name n2.ip])

/-- Run the substitution loop over positions `k, k+1, ...` for `fuel` more
iterations (`for arg in rest` visits each of the `len(rest)` positions of
the list it mutates in place; `set` preserves length). -/
def substGo (topos : List (List Node)) : List String → Nat → Nat → List String × List Ev
  | rest, _, 0 => (rest, [])
  | rest, k, fuel + 1 =>
    let s := substStep topos rest k
    let r := substGo topos s.1 (k + 1) fuel
    (r.1, s.2 ++ r.2)

/-- The address-substitution loop of `CLI.default`, exactly as the source
performs it (value search via `rest.index(arg)`, not positional update). -/
def substCode (topos : List (List Node)) (rest : List String) : List String × List Ev :=
  substGo topos rest 0 rest.length

/-- Modelled from the spec: §4.3 requires that "every token in `rest` that
independently resolves (via `resolveAny`) to some endpoint `e2` is replaced
IN PLACE by `e2`'s current primary address" — per-position substitution.
This is the behaviour claimed by the spec, to be compared with `substCode`
above, which embeds what the source actually does. -/
def substSpec (topos : List (List Node)) (rest : List String) : List String :=
  rest.map (fun arg =>
    match resolveAny topos arg with
    | some p => p.2.ip
    | none => arg)

/-- `CLI.default` (the handler for a line whose selector is not a built-in).
Re-parses the line; with an empty argument part it returns at once.
Otherwise the first token is resolved across topologies in ascending order;
on failure an unknown-command error is reported; on success the argument
tokens go through the substitution loop, are re-joined with single spaces,
sent to the node with `printPid = not isShellBuiltin(first)`, and the broker
blocks in `waitForNode`. -/
def defaultCmd (sh : String → Bool) (st : BrokerSt) (line : String) : BrokerSt :=
  let p := parseline line
  if p.2 = "" then st
  else
    let first := p.1.getD "None"
    let args := stripTrailingNewline p.2
    let rest := pySplitSpace args
    match resolveAny st.topos first with
    | none =>
      { st with trace := st.trace ++ [Ev.err ("*** Unknown command: " ++ first ++ "\n")] }
    | some (i, node) =>
      let s := substCode st.topos rest
      let cmdStr := joinSpace s.1
      let builtin := sh first
      let sent := { node with waiting := true }
      let topos1 := updateNode st.topos i node.name sent
      let ps := popSupply st.pollSupply
      let r := waitForNode st.stdinIsTTY sent st.mode ps.1
      { st with
        topos := updateNode topos1 i node.name r.node
        mode := r.mode
        trace := st.trace ++ s.2 ++ [Ev.sendCmd node.name cmdStr (!builtin)] ++ r.trace
        pollSupply := ps.2
        sentWhileWaiting := st.sentWhileWaiting || node.waiting
        stuck := st.stuck || r.stuck }

/-- `do_nodes`: for each topology, print the available-nodes banner with the
names joined by single spaces.  (The source sorts the Python node objects
themselves; Python 2 orders arbitrary objects in an implementation-defined
way, so the embedding keeps construction order.) -/
def do_nodes (st : BrokerSt) : BrokerSt :=
  { st with
    trace := st.trace ++ st.topos.map (fun t =>
      Ev.outp ("available nodes are: \n" ++ joinSpace (t.map Node.name) ++ "\n")) }

/-- The `if self.isatty(): quietRun('stty sane')` step of `CLI.__init__`'s
interactive loop.  The guard is a bare generator call and hence truthy. -/
def sttySaneStep (st : BrokerSt) : BrokerSt :=
  if pyTruthy (isattyGen st.stdinIsTTY) then
    { st with mode := applyStty st.mode SttyCmd.sane, trace := st.trace ++ [Ev.stty SttyCmd.sane] }
  else st

/-- `do_noecho`: `stty -echo`, run the line through `default`, `stty echo`.
Both guards are bare generator calls and hence truthy. -/
def do_noecho (sh : String → Bool) (st : BrokerSt) (line : String) : BrokerSt :=
  let st1 :=
    if pyTruthy (isattyGen st.stdinIsTTY) then
      { st with mode := applyStty st.mode SttyCmd.noEcho,
                trace := st.trace ++ [Ev.stty SttyCmd.noEcho] }
    else st
  let st2 := defaultCmd sh st1 line
  if pyTruthy (isattyGen st2.stdinIsTTY) then
    { st2 with mode := applyStty st2.mode SttyCmd.echoOn,
               trace := st2.trace ++ [Ev.stty SttyCmd.echoOn] }
  else st2

/-- The selectors for which the class defines a `do_` method; a first token
outside this list falls through to `default`. -/
def builtinNames : List String :=
  ["help", "nodes", "net", "sh", "py", "px", "pingall", "pingpair",
   "pingallfull", "pingpairfull", "iperf", "iperfudp", "intfs", "dump",
   "link", "xterm", "x", "gterm", "exit", "quit", "EOF",
   "noecho", "source", "dpctl", "time"]

/-- The argument handling and file opening of `do_source`: exactly one
whitespace-separated argument is required; a missing file raises `IOError`,
reported as an error.  Returns the file's lines on success. -/
def openScript (files : List (String × List String)) (line : String) :
    Except String (List String) :=
  match pySplitWs line with
  | [a] =>
    match files.find? (fun f => f.1 == a) with
    | some f => Except.ok f.2
    | none => Except.error ("error reading file " ++ a ++ "\n")
  | _ => Except.error "usage: source <file>\n"

/-- The read-dispatch loop of `do_source`: read a line; a nonempty line goes
through `onecmd` — whose stop result is DISCARDED — and an empty read
(end-of-file) breaks.  `run` is the command dispatcher at the current
nesting fuel. -/
def runLines (run : BrokerSt → String → BrokerSt × Bool) :
    BrokerSt → List String → BrokerSt
  | st, [] => st
  | st, l :: ls =>
    if st.stuck then st
    else if l.length > 0 then runLines run (run st l).1 ls
    else st

/-- `Cmd.onecmd` as the spec describes the dispatch loop core (§4.2, §4.6):
parse the selector; blank lines are no-ops (`emptyline` is overridden to do
nothing); a selector with a `do_` method dispatches to it, anything else
falls to `default`.  Returns the new state and the stop flag (`do_exit` and
friends return a truthy result).  The built-ins that only call out to the
topology collaborator are recorded as pass-through trace events.  `fuel`
bounds the nesting of `source`/`time` re-entry; exhaustion marks the run
stuck (the modelled program would recurse without bound). -/
def onecmd (sh : String → Bool) : Nat → BrokerSt → String → BrokerSt × Bool
  | 0, st, _ => ({ st with stuck := true }, false)
  | fuel + 1, st, line =>
    if st.stuck then (st, false)
    else
      match parseline line with
      | (none, _) => (st, false)
      | (some c, rest) =>
        if c = "nodes" then (do_nodes st, false)
        else if c = "exit" then (st, true)
        else if c = "quit" then (st, true)
        else if c = "EOF" then ({ st with trace := st.trace ++ [Ev.outp "\n"] }, true)
        else if c = "source" then
          match openScript st.files rest with
          | Except.error msg => ({ st with trace := st.trace ++ [Ev.err msg] }, false)
          | Except.ok ls => (runLines (fun s l => onecmd sh fuel s l) st ls, false)
        else if c = "noecho" then (do_noecho sh st rest, false)
        else if c = "time" then
          let st1 := (onecmd sh fuel st rest).1
          ({ st1 with trace := st1.trace ++ [Ev.outp "*** Elapsed time\n"] }, false)
        else if c ∈ builtinNames then
          ({ st with trace := st.trace ++ [Ev.passthru c rest] }, false)
        else (defaultCmd sh st line, false)

/-- `do_source`: parse the argument, open the script, and feed every line
through `onecmd`, stopping only at end-of-file; `onecmd`'s stop result is
discarded. -/
def do_source (sh : String → Bool) (fuel : Nat) (st : BrokerSt) (line : String) : BrokerSt :=
  match openScript st.files line with
  | Except.error msg => { st with trace := st.trace ++ [Ev.err msg] }
  | Except.ok ls => runLines (fun s l => onecmd sh fuel s l) st ls

/-- `Cmd.cmdloop` over the interactive console, modelled from the spec
(§4.6): one line per prompt, dispatched through `onecmd`; a truthy stop
result terminates the loop, as does exhaustion of the input. -/
def cmdloop (sh : String → Bool) (fuel : Nat) : BrokerSt → List String → BrokerSt
  | st, [] => st
  | st, l :: ls =>
    if st.stuck then st
    else
      let r := onecmd sh fuel st l
      if r.2 then r.1 else cmdloop sh fuel r.1 ls

/-- Result of draining one node at startup. -/
structure DrainRes where
  w : Bool
  sc : List MonitorEv
  tr : List Ev
  stuck : Bool
deriving DecidableEq, Repr

/-- The per-node startup drain of `CLI.__init__`: `while node.waiting:
node.sendInt(); node.monitor()`.  If the monitor script runs out while the
flag is still set, the real loop never terminates: stuck. -/
def drainGo (nm : String) : Bool → List MonitorEv → DrainRes
  | false, sc => ⟨false, sc, [], false⟩
  | true, [] => ⟨true, [], [Ev.sendInt nm], true⟩
  | true, m :: rest =>
    let r := drainGo nm (!m.clears) rest
    ⟨r.w, r.sc, Ev.sendInt nm :: Ev.monitor nm m.data :: r.tr, r.stuck⟩

/-- Result of draining a list of nodes (or of topologies). -/
structure DrainListRes where
  nodes : List Node
  tr : List Ev
  stuck : Bool
deriving DecidableEq, Repr

/-- Drain the nodes of one topology in order; a stuck drain blocks the whole
program, leaving the remaining nodes untouched. -/
def drainList : List Node → DrainListRes
  | [] => ⟨[], [], false⟩
  | n :: rest =>
    let d := drainGo n.name n.waiting n.outScript
    let n' := { n with waiting := d.w, outScript := d.sc }
    if d.stuck then ⟨n' :: rest, d.tr, true⟩
    else
      let r := drainList rest
      ⟨n' :: r.nodes, d.tr ++ r.tr, r.stuck⟩

/-- Result of draining every topology. -/
structure DrainToposRes where
  topos : List (List Node)
  tr : List Ev
  stuck : Bool
deriving DecidableEq, Repr

/-- Drain all topologies in ascending index order. -/
def drainTopos : List (List Node) → DrainToposRes
  | [] => ⟨[], [], false⟩
  | t :: ts =>
    let d := drainList t
    if d.stuck then ⟨d.nodes :: ts, d.tr, true⟩
    else
      let r := drainTopos ts
      ⟨d.nodes :: r.topos, d.tr ++ r.tr, r.stuck⟩

/-- The "make sure no nodes are still waiting" pass of `CLI.__init__`. -/
def drainAll (st : BrokerSt) : BrokerSt :=
  let d := drainTopos st.topos
  { st with topos := d.topos, trace := st.trace ++ d.tr, stuck := st.stuck || d.stuck }

/-- Broker state as `CLI.__init__` sets it up, before any input handling. -/
def initialState (tty : Bool) (topos : List (List Node))
    (files : List (String × List String)) (supply : List (List PollEv)) : BrokerSt :=
  ⟨topos, ⟨true, true⟩, [], supply, files, tty, false, false⟩

/-- `CLI.__init__` after construction of the per-topology structures: with a
script passed at construction it runs `do_source` on it and RETURNS AT ONCE
— the drain loop below is never reached.  Otherwise it drains every
endpoint of every topology, normalizes the terminal (`stty sane`, guard
truthy) and enters `cmdloop`.  (The `except KeyboardInterrupt` retry of the
constructor loop is not exercised: the modelled console delivers no idle
interrupts.) -/
def cliInit (sh : String → Bool) (fuel : Nat) (tty : Bool)
    (topos : List (List Node)) (files : List (String × List String))
    (supply : List (List PollEv)) (script : Option String)
    (console : List String) : BrokerSt :=
  let st0 := initialState tty topos files supply
  match script with
  | some s => do_source sh fuel st0 s
  | none =>
    let st1 := drainAll st0
    if st1.stuck then st1
    else cmdloop sh fuel (sttySaneStep st1) console

/-- Recognizer for terminal-mode trace events. -/
def isSttyEv : Ev → Bool
  | .stty _ => true
  | _ => false

/-- Recognizer for send-interrupt trace events. -/
def isSendIntEv : Ev → Bool
  | .sendInt _ => true
  | _ => false

/-- The broker-level invariant behind the at-most-one-outstanding-command
guarantee: the instrumented flag has not fired, and (unless the program is
blocked) no endpoint has a command outstanding. -/
def BrokerInv (st : BrokerSt) : Prop :=
  st.sentWhileWaiting = false ∧ (st.stuck = true ∨ allClear st.topos = true)

/- Concrete fixtures used by witnesses and counterexamples. -/

/-- A trivial shell-builtin classifier for concrete runs. -/
def shFix : String → Bool := fun _ => false

/-- A finished host `h1`. -/
def h1Fix : Node := ⟨"h1", "10.0.0.1", false, [⟨"", true⟩]⟩

/-- A finished host `h2`. -/
def h2Fix : Node := ⟨"h2", "10.0.0.2", false, []⟩

/-- `h1` left waiting by a previous session, with one pending monitor chunk
that clears the flag. -/
def h1WaitingFix : Node := ⟨"h1", "10.0.0.1", true, [⟨"", true⟩]⟩

/-- A poll event: only the node's stdout is readable. -/
def peFix : PollEv := ⟨false, none, true⟩

/-- A poll event: a cancellation was delivered during the iteration. -/
def peIntFix : PollEv := ⟨true, none, false⟩

/-! ## Helper lemmas about the waitForNode loop -/

theorem monitorStep_no_stty (n : Node) : (monitorStep n).2.filter isSttyEv = [] := by
  unfold monitorStep
  split <;> simp [isSttyEv]

theorem stepOf_no_stty (n : Node) (e : PollEv) : (stepOf n e).2.filter isSttyEv = [] := by
  unfold stepOf
  rcases e with ⟨i, s, r⟩
  cases s <;> cases r <;> simp [isSttyEv, monitorStep_no_stty, List.filter_append]

theorem wfnLoop_no_stty : ∀ (evs : List PollEv) (n : Node),
    (wfnLoop n evs).trace.filter isSttyEv = [] := by
  intro evs
  induction evs with
  | nil => intro n; simp [wfnLoop]
  | cons e evs ih =>
    intro n
    by_cases hi : e.interrupted
    · simp [wfnLoop, hi, isSttyEv, ih]
    · by_cases hw : ((stepOf n e).1).waiting
      · simp [wfnLoop, hi, hw, List.filter_append, ih, stepOf_no_stty]
      · simp [wfnLoop, hi, hw, stepOf_no_stty]

theorem wfnLoop_not_stuck : ∀ (evs : List PollEv) (n : Node),
    (wfnLoop n evs).stuck = false → (wfnLoop n evs).node.waiting = false := by
  intro evs
  induction evs with
  | nil => intro n h; simp [wfnLoop] at h
  | cons e evs ih =>
    intro n h
    by_cases hi : e.interrupted
    · simp [wfnLoop, hi] at h ⊢
      exact ih _ h
    · by_cases hw : ((stepOf n e).1).waiting
      · simp [wfnLoop, hi, hw] at h ⊢
        exact ih _ h
      · simp [wfnLoop, hi, hw]

theorem waitForNode_not_stuck (tty : Bool) (n : Node) (mode : TermMode) (evs : List PollEv)
    (h : (waitForNode tty n mode evs).stuck = false) :
    (waitForNode tty n mode evs).node.waiting = false := by
  unfold waitForNode at h ⊢
  simp at h ⊢
  exact wfnLoop_not_stuck evs n h

/-- Every branch of `defaultCmd` only appends to the trace and leaves the
tty status of the controlling stream unchanged. -/
theorem defaultCmd_trace_extends (sh : String → Bool) (st : BrokerSt) (line : String) :
    st.trace <+: (defaultCmd sh st line).trace ∧
    (defaultCmd sh st line).stdinIsTTY = st.stdinIsTTY := by
  unfold defaultCmd
  by_cases h : (parseline line).2 = ""
  · simp [h]
  · rcases hr : resolveAny st.topos ((parseline line).1.getD "None") with _ | ⟨i, node⟩ <;>
      refine ⟨?_, ?_⟩ <;> simp [h, hr, List.append_assoc]

/-!  ## Claim C2 — terminal-mode restoration in waitForNode -/

/-- Claim C2 counterexample: on a plain, normally completing run of
`waitForNode` (no cancellation, no error: the node finishes after one
monitor round, `stuck = false`), the terminal mode afterwards is NOT the
pre-loop mode — the claim that "after waitForNode returns the terminal mode
equals the pre-loop mode" on every exit path is false already on the normal
path. -/
theorem wfn_mode_not_restored_cex :
    (waitForNode true ⟨"h1", "10.0.0.1", true, [⟨"done", true⟩]⟩ ⟨true, true⟩
        [⟨false, none, true⟩]).stuck = false ∧
    (waitForNode true ⟨"h1", "10.0.0.1", true, [⟨"done", true⟩]⟩ ⟨true, true⟩
        [⟨false, none, true⟩]).mode ≠ ⟨true, true⟩ := by
  decide

/-- Claim C2 (amended): `waitForNode` switches the terminal to
single-character delivery (`stty -icanon min 1`) on entry and never
restores the prior mode on any exit path: for every run, the resulting mode
is the pre-loop mode with `icanon` cleared, and the only terminal-mode
command in the whole trace is the entry switch.  (Restoration to a sane
mode happens only in `CLI.__init__`'s loop, outside `waitForNode`.) -/
theorem wfn_mode_left_raw (tty : Bool) (n : Node) (mode : TermMode) (evs : List PollEv) :
    (waitForNode tty n mode evs).mode = { mode with icanon := false } ∧
    (waitForNode tty n mode evs).trace.filter isSttyEv = [Ev.stty SttyCmd.rawMin1] := by
  unfold waitForNode
  simp [pyTruthy, isattyGen, applyStty, isSttyEv, List.filter_append, wfnLoop_no_stty]

/-!  ## Claim C6 — cooperative cancellation in waitForNode -/

/-- Claim C6: cancellation of the waitForNode loop is cooperative.  (1) An
iteration hit by a `KeyboardInterrupt` sends the node an interrupt and
continues the loop with the remaining events; (2) whenever the loop exits
(is not left blocked), the waiting flag was observed false; (3) a
non-interrupted iteration at whose end `waiting` is false terminates the
loop immediately, independently of any further events. -/
theorem wfn_cooperative_cancellation :
    (∀ (n : Node) (e : PollEv) (evs : List PollEv), e.interrupted = true →
      wfnLoop n (e :: evs) =
        ⟨(wfnLoop n evs).node, Ev.sendInt n.name :: (wfnLoop n evs).trace,
          (wfnLoop n evs).stuck⟩) ∧
    (∀ (n : Node) (evs : List PollEv), (wfnLoop n evs).stuck = false →
      (wfnLoop n evs).node.waiting = false) ∧
    (∀ (n : Node) (e : PollEv) (evs : List PollEv), e.interrupted = false →
      (stepOf n e).1.waiting = false →
      wfnLoop n (e :: evs) = ⟨(stepOf n e).1, (stepOf n e).2, false⟩) := by
  refine ⟨?_, ?_, ?_⟩
  · intro n e evs hi
    simp [wfnLoop, hi]
  · intro n evs h
    exact wfnLoop_not_stuck evs n h
  · intro n e evs hi hw
    simp [wfnLoop, hi, hw]

/-- Witness for C6 at concrete inputs: an interrupted iteration on a
still-running `h1` yields a `sendInt` and continuation; a completing run
exits with `waiting = false`; and a completing iteration stops the loop
regardless of pending events. -/
theorem wfn_cooperative_cancellation_witness :
    wfnLoop h1WaitingFix [peIntFix] =
      ⟨(wfnLoop h1WaitingFix []).node, Ev.sendInt "h1" :: (wfnLoop h1WaitingFix []).trace,
        (wfnLoop h1WaitingFix []).stuck⟩ ∧
    (wfnLoop h1WaitingFix [peFix]).node.waiting = false ∧
    wfnLoop h1WaitingFix (peFix :: [peIntFix]) =
      ⟨(stepOf h1WaitingFix peFix).1, (stepOf h1WaitingFix peFix).2, false⟩ :=
  ⟨wfn_cooperative_cancellation.1 h1WaitingFix peIntFix [] (by decide),
   wfn_cooperative_cancellation.2.1 h1WaitingFix [peFix] (by decide),
   wfn_cooperative_cancellation.2.2 h1WaitingFix peFix [peIntFix] (by decide) (by decide)⟩

/-!  ## Claim C9 — the isatty generator quirk -/

/-- Claim C9: `CLI.isatty` is a generator function, so a bare call returns a
truthy generator object for every actual tty status; consequently every
`if self.isatty():` guard is taken unconditionally: `__init__`'s `stty
sane` step always runs, `waitForNode` always begins by issuing `stty
-icanon min 1`, and `do_noecho` always issues `stty -echo` and `stty echo`
around the dispatched command. -/
theorem isatty_guard_always_true (tty : Bool) :
    pyTruthy (isattyGen tty) = true ∧
    (∀ st : BrokerSt, sttySaneStep st =
      { st with mode := applyStty st.mode SttyCmd.sane,
                trace := st.trace ++ [Ev.stty SttyCmd.sane] }) ∧
    (∀ (n : Node) (mode : TermMode) (evs : List PollEv),
      (waitForNode tty n mode evs).trace.head? = some (Ev.stty SttyCmd.rawMin1)) ∧
    (∀ (sh : String → Bool) (st : BrokerSt) (line : String),
      Ev.stty SttyCmd.noEcho ∈ (do_noecho sh st line).trace ∧
      Ev.stty SttyCmd.echoOn ∈ (do_noecho sh st line).trace) := by
  refine ⟨rfl, ?_, ?_, ?_⟩
  · intro st
    simp [sttySaneStep, pyTruthy, isattyGen]
  · intro n mode evs
    simp [waitForNode, pyTruthy, isattyGen]
  · intro sh st line
    unfold do_noecho
    simp only [pyTruthy, isattyGen, if_true]
    obtain ⟨⟨t, ht⟩, -⟩ := defaultCmd_trace_extends sh
      { st with mode := applyStty st.mode SttyCmd.noEcho,
                trace := st.trace ++ [Ev.stty SttyCmd.noEcho] } line
    constructor
    · simp [← ht]
    · simp

/-!  ## Claim C10 — single-token lines are silent no-ops -/

/-- Claim C10: a line whose argument part is empty (a single token, with or
without a matching endpoint) makes `default` return immediately with no
effect whatsoever: no command sent, no error reported, no state change. -/
theorem single_token_noop (sh : String → Bool) (st : BrokerSt) (line : String)
    (h : (parseline line).2 = "") :
    defaultCmd sh st line = st := by
  unfold defaultCmd
  simp [h]

/-- Witness for C10: both for a token naming an existing endpoint (`"h1"`)
and for an unknown token (`"h99"`), the handler leaves the state untouched. -/
theorem single_token_noop_witness :
    ((parseline "h1").2 = "" ∧
      defaultCmd shFix (initialState true [[h1Fix, h2Fix]] [] []) "h1" =
        initialState true [[h1Fix, h2Fix]] [] []) ∧
    ((parseline "h99").2 = "" ∧
      defaultCmd shFix (initialState true [[h1Fix, h2Fix]] [] []) "h99" =
        initialState true [[h1Fix, h2Fix]] [] []) :=
  ⟨⟨by decide, single_token_noop shFix _ "h1" (by decide)⟩,
   ⟨by decide, single_token_noop shFix _ "h99" (by decide)⟩⟩

/-!  ## Claim C5 — ascending-index precedence of name resolution -/

/-- Claim C5: `resolveAny` (the ascending scan used both for the target
token and for every argument token of `CLI.default`) always selects the
topology with the lowest index containing the name: if it returns
`(i, n)`, then topology `i` maps the name to `n` and no topology with a
smaller index contains the name. -/
theorem resolveAny_lowest_index (topos : List (List Node)) (nm : String) (i : Nat) (n : Node)
    (h : resolveAny topos nm = some (i, n)) :
    (∃ t, topos.get? i = some t ∧ dictLookup t nm = some n) ∧
    ∀ j, j < i → ∀ t, topos.get? j = some t → dictLookup t nm = none := by
  induction topos generalizing i with
  | nil => simp [resolveAny] at h
  | cons t ts ih =>
    rw [resolveAny] at h
    cases hd : dictLookup t nm with
    | some m =>
      rw [hd] at h
      simp only [Option.some.injEq, Prod.mk.injEq] at h
      obtain ⟨hi, hn⟩ := h
      subst hn
      refine ⟨⟨t, by simp [← hi], hd⟩, ?_⟩
      intro j hj
      omega
    | none =>
      rw [hd] at h
      simp only [Option.map_eq_some'] at h
      obtain ⟨⟨i', n'⟩, hrec, heq⟩ := h
      simp only [Prod.mk.injEq] at heq
      obtain ⟨hi, hn⟩ := heq
      subst hn
      obtain ⟨⟨t', hget, hlook⟩, hmin⟩ := ih i' hrec
      refine ⟨⟨t', by rw [← hi]; simp only [List.get?_cons_succ]; exact hget, hlook⟩, ?_⟩
      intro j hj t'' hget''
      cases j with
      | zero =>
        simp only [List.get?_cons_zero, Option.some.injEq] at hget''
        subst hget''
        exact hd
      | succ j' =>
        refine hmin j' (by omega) t'' ?_
        simpa using hget''

/-- Witness for C5 with a literal name collision: two topologies, each
containing a node named `h1`; resolution lands on index 0's handle. -/
theorem resolveAny_lowest_index_witness :
    (∃ t, [[h1Fix], [⟨"h1", "10.1.0.1", false, []⟩]].get? 0 = some t ∧
      dictLookup t "h1" = some h1Fix) ∧
    ∀ j, j < 0 → ∀ t, [[h1Fix], [⟨"h1", "10.1.0.1", false, []⟩]].get? j = some t →
      dictLookup t "h1" = none :=
  resolveAny_lowest_index [[h1Fix], [⟨"h1", "10.1.0.1", false, []⟩]] "h1" 0 h1Fix (by decide)

/-!  ## Claim C4 — address substitution is value-search, not per-position -/

/-- Claim C4 (code bug): the source substitutes by searching for the FIRST
occurrence of the token's current value (`rest[rest.index(arg)] = ...`),
not by position.  When a substituted address collides with the text of a
later token that itself names an endpoint (here an endpoint literally named
`10.0.0.2`), the code overwrites the wrong position: it produces
`ping 10.0.0.9 10.0.0.2` where the spec's per-position substitution
(`substSpec`) requires `ping 10.0.0.2 10.0.0.9`.  On collision-free input
the two agree, and the spec's own scenario (`h1 ping h2` dispatching
`ping 10.0.0.2` to `h1`, with the address freshly refreshed) does hold. -/
theorem subst_value_search_bug :
    (substCode [[⟨"h2", "10.0.0.2", false, []⟩, ⟨"10.0.0.2", "10.0.0.9", false, []⟩]]
        ["ping", "h2", "10.0.0.2"]).1 = ["ping", "10.0.0.9", "10.0.0.2"] ∧
    substSpec [[⟨"h2", "10.0.0.2", false, []⟩, ⟨"10.0.0.2", "10.0.0.9", false, []⟩]]
        ["ping", "h2", "10.0.0.2"] = ["ping", "10.0.0.2", "10.0.0.9"] ∧
    (substCode [[⟨"h2", "10.0.0.2", false, []⟩, ⟨"10.0.0.2", "10.0.0.9", false, []⟩]]
        ["ping", "h2", "10.0.0.2"]).1 ≠
      substSpec [[⟨"h2", "10.0.0.2", false, []⟩, ⟨"10.0.0.2", "10.0.0.9", false, []⟩]]
        ["ping", "h2", "10.0.0.2"] ∧
    (defaultCmd shFix (initialState true [[h1Fix, h2Fix]] [] [[peFix]]) "h1 ping h2").trace =
      [Ev.updateIP "h2" "10.0.0.2", Ev.sendCmd "h1" "ping 10.0.0.2" true,
       Ev.stty SttyCmd.rawMin1, Ev.monitor "h1" "", Ev.outp ""] := by
  decide

/-!  ## Claim C7 — unknown selectors -/

/-- Claim C7 counterexample: an input line consisting of a single
unresolvable token (`"h99"`, not a built-in, no such endpoint anywhere)
produces NO unknown-command report at all — the handler returns before the
resolution scan because the argument part is empty, so the claim is false
for one-token lines. -/
theorem unknown_single_token_silent_cex :
    resolveAny [[h1Fix]] "h99" = none ∧
    "h99" ∉ builtinNames ∧
    (defaultCmd shFix (initialState true [[h1Fix]] [] []) "h99").trace = [] := by
  decide

/-- Claim C7 (amended): for every input line with a NONEMPTY argument part
whose first token matches no built-in and resolves to no endpoint in any
topology, `default` reports exactly the unknown-command error and does
nothing else (state otherwise unchanged), and the dispatch loop goes on to
accept the next line. -/
theorem unknown_with_args_reports (sh : String → Bool) (st : BrokerSt)
    (line first args : String)
    (hp : parseline line = (some first, args)) (ha : args ≠ "")
    (hr : resolveAny st.topos first = none) (hb : first ∉ builtinNames) :
    defaultCmd sh st line =
      { st with trace := st.trace ++ [Ev.err ("*** Unknown command: " ++ first ++ "\n")] } ∧
    ∀ (fuel : Nat) (ls : List String), st.stuck = false →
      cmdloop sh (fuel + 1) st (line :: ls) =
        cmdloop sh (fuel + 1) (defaultCmd sh st line) ls := by
  have hne : ∀ s, s ∈ builtinNames → ¬ first = s := fun s hs he => hb (he ▸ hs)
  constructor
  · simp [defaultCmd, hp, ha, hr]
  · intro fuel ls hstuck
    rw [cmdloop]
    simp only [hstuck, Bool.false_eq_true, if_false]
    have hcmd : onecmd sh (fuel + 1) st line = (defaultCmd sh st line, false) := by
      rw [onecmd]
      simp [hstuck, hp, hb, hne "nodes" (by decide), hne "exit" (by decide),
        hne "quit" (by decide), hne "EOF" (by decide), hne "source" (by decide),
        hne "noecho" (by decide), hne "time" (by decide)]
    rw [hcmd]
    simp

/-- Witness for C7 at the spec's own scenario `"h99 ls"`: the error is
reported, nothing else happens, and the loop dispatches the next line. -/
theorem unknown_with_args_reports_witness :
    (defaultCmd shFix (initialState true [[h1Fix]] [] []) "h99 ls" =
      { initialState true [[h1Fix]] [] [] with
        trace := [Ev.err "*** Unknown command: h99\n"] }) ∧
    ∀ (fuel : Nat) (ls : List String), (initialState true [[h1Fix]] [] []).stuck = false →
      cmdloop shFix (fuel + 1) (initialState true [[h1Fix]] [] []) ("h99 ls" :: ls) =
        cmdloop shFix (fuel + 1)
          (defaultCmd shFix (initialState true [[h1Fix]] [] []) "h99 ls") ls := by
  have h := unknown_with_args_reports shFix (initialState true [[h1Fix]] [] [])
    "h99 ls" "h99" "ls" (by decide) (by decide) (by decide) (by decide)
  exact ⟨by rw [h.1]; decide, h.2⟩

/-!  ## Claim C8 — script processing stops only at end-of-file -/

/-- Claim C8 counterexample: `do_source` discards `onecmd`'s stop result,
so a script line yielding an explicit exit result does NOT stop script
processing: for the script `"exit"` then `"nodes"`, the `exit` line does
yield a stop result, yet the following `nodes` line is still read and
executed (its listing appears in the trace). -/
theorem source_ignores_exit_cex :
    (onecmd shFix 1 (initialState true [[h1Fix, h2Fix]]
        [("g", ["exit\n", "nodes\n"])] []) "exit\n").2 = true ∧
    (do_source shFix 1 (initialState true [[h1Fix, h2Fix]]
        [("g", ["exit\n", "nodes\n"])] []) "g").trace =
      [Ev.outp "available nodes are: \nh1 h2\n"] := by
  decide

/-- Claim C8 (amended): every script line is fed through the same `onecmd`
dispatch path as interactive input, but processing stops only at
end-of-file (an empty read): an explicit exit result from a dispatched
command is discarded and the remaining lines are still processed.  The
spec's concrete script `"nodes"` then `"exit"` does produce the listing and
then terminate — but because the file ends, not because of the exit
result. -/
theorem source_eof_only (sh : String → Bool) (fuel : Nat) (st : BrokerSt)
    (ls : List String) (h : st.stuck = false) :
    runLines (fun s l => onecmd sh (fuel + 1) s l) st ("exit\n" :: ls) =
      runLines (fun s l => onecmd sh (fuel + 1) s l) st ls ∧
    (do_source shFix 1 (initialState true [[h1Fix, h2Fix]]
        [("f", ["nodes\n", "exit\n"])] []) "f").trace =
      [Ev.outp "available nodes are: \nh1 h2\n"] := by
  constructor
  · have hp : parseline "exit\n" = (some "exit", "") := by decide
    have hcmd : onecmd sh (fuel + 1) st "exit\n" = (st, true) := by
      rw [onecmd]
      simp [h, hp]
    have hl : 0 < "exit\n".length := by decide
    rw [runLines]
    simp [h, hcmd, hl]
  · decide

/-- Witness for C8: on a concrete non-stuck state, the `exit` line is
dispatched, its stop result is discarded, and the rest of the script is
processed as if the exit line were absent. -/
theorem source_eof_only_witness :
    runLines (fun s l => onecmd shFix 1 s l)
        (initialState true [[h1Fix, h2Fix]] [] []) ["exit\n", "nodes\n"] =
      runLines (fun s l => onecmd shFix 1 s l)
        (initialState true [[h1Fix, h2Fix]] [] []) ["nodes\n"] ∧
    (do_source shFix 1 (initialState true [[h1Fix, h2Fix]]
        [("f", ["nodes\n", "exit\n"])] []) "f").trace =
      [Ev.outp "available nodes are: \nh1 h2\n"] :=
  source_eof_only shFix 0 (initialState true [[h1Fix, h2Fix]] [] []) ["nodes\n"] (by decide)

/-!  ## Helper lemmas about the startup drain -/

theorem drainGo_not_stuck (nm : String) :
    ∀ (sc : List MonitorEv) (w : Bool), (drainGo nm w sc).stuck = false →
      (drainGo nm w sc).w = false := by
  intro sc
  induction sc with
  | nil =>
    intro w h
    cases w with
    | false => rfl
    | true => simp [drainGo] at h
  | cons m rest ih =>
    intro w h
    cases w with
    | false => rfl
    | true =>
      rw [drainGo] at h ⊢
      exact ih _ h

theorem drainList_clear : ∀ (ns : List Node), (drainList ns).stuck = false →
    (drainList ns).nodes.all (fun n => !n.waiting) = true := by
  intro ns
  induction ns with
  | nil => intro h; rfl
  | cons n rest ih =>
    intro h
    rw [drainList] at h ⊢
    by_cases hd : (drainGo n.name n.waiting n.outScript).stuck
    · simp [hd] at h
    · simp only [hd, Bool.false_eq_true, if_false] at h ⊢
      simp only [List.all_cons, Bool.and_eq_true]
      constructor
      · have := drainGo_not_stuck n.name n.outScript n.waiting (by simpa using hd)
        simp [this]
      · exact ih h

theorem drainTopos_clear : ∀ (ts : List (List Node)), (drainTopos ts).stuck = false →
    allClear (drainTopos ts).topos = true := by
  intro ts
  induction ts with
  | nil => intro h; rfl
  | cons t rest ih =>
    intro h
    rw [drainTopos] at h ⊢
    by_cases hd : (drainList t).stuck
    · simp [hd] at h
    · simp only [hd, Bool.false_eq_true, if_false] at h ⊢
      simp only [allClear, List.all_cons, Bool.and_eq_true]
      exact ⟨drainList_clear t (by simpa using hd), ih h⟩

/-!  ## Claim C3 — the startup drain -/

/-- Claim C3 counterexample: with a script passed at construction and an
endpoint left waiting from a previous session, `__init__` returns right
after `do_source` — BEFORE the drain loop — so the script's first command
is dispatched to the endpoint while its waiting flag is still true, and no
interrupt is ever sent: the claimed pre-input drain does not happen on the
script path. -/
theorem script_skips_drain_cex :
    (cliInit shFix 3 true [[h1WaitingFix]] [("f", ["h1 ls\n"])] [[peFix]]
        (some "f") []).sentWhileWaiting = true ∧
    ((cliInit shFix 3 true [[h1WaitingFix]] [("f", ["h1 ls\n"])] [[peFix]]
        (some "f") []).trace.all (fun e => !isSendIntEv e)) = true := by
  decide

/-- Claim C3 (amended): the drain runs only when NO script is passed at
construction.  On the interactive path, before the first console line is
read, every endpoint of every topology is repeatedly interrupted and
monitored until its waiting flag clears (provided the drain terminates:
afterwards no endpoint is waiting), and only then does the command loop
start.  When a script is passed, `__init__` runs it and returns without
draining (see the counterexample). -/
theorem drain_interactive_only (sh : String → Bool) (fuel : Nat) (tty : Bool)
    (topos : List (List Node)) (files : List (String × List String))
    (supply : List (List PollEv)) (console : List String)
    (h : (drainAll (initialState tty topos files supply)).stuck = false) :
    allClear (drainAll (initialState tty topos files supply)).topos = true ∧
    cliInit sh fuel tty topos files supply none console =
      cmdloop sh fuel (sttySaneStep (drainAll (initialState tty topos files supply))) console := by
  constructor
  · have := drainTopos_clear (initialState tty topos files supply).topos
    simp only [drainAll]
    apply this
    simp only [drainAll] at h
    simpa [initialState] using h
  · simp [cliInit, h]

/-- Witness for C3 at a concrete topology whose endpoint is initially
waiting: the interactive path drains it (flag clear afterwards) and then
enters the command loop. -/
theorem drain_interactive_only_witness :
    allClear (drainAll (initialState true [[h1WaitingFix]] [] [[peFix]])).topos = true ∧
    cliInit shFix 3 true [[h1WaitingFix]] [] [[peFix]] none [] =
      cmdloop shFix 3 (sttySaneStep (drainAll (initialState true [[h1WaitingFix]] [] [[peFix]]))) [] :=
  drain_interactive_only shFix 3 true [[h1WaitingFix]] [] [[peFix]] [] (by decide)

/-!  ## Helper lemmas towards the single-outstanding-command invariant -/

theorem dictLookup_mem {t : List Node} {nm : String} {n : Node}
    (h : dictLookup t nm = some n) : n ∈ t := by
  unfold dictLookup at h
  have := List.mem_of_find?_eq_some h
  simpa using this

theorem resolveAny_mem : ∀ (topos : List (List Node)) (nm : String) (i : Nat) (n : Node),
    resolveAny topos nm = some (i, n) → ∃ t ∈ topos, n ∈ t := by
  intro topos
  induction topos with
  | nil => intro nm i n h; simp [resolveAny] at h
  | cons t ts ih =>
    intro nm i n h
    rw [resolveAny] at h
    cases hd : dictLookup t nm with
    | some m =>
      rw [hd] at h
      simp only [Option.some.injEq, Prod.mk.injEq] at h
      exact ⟨t, by simp, h.2 ▸ dictLookup_mem hd⟩
    | none =>
      rw [hd] at h
      simp only [Option.map_eq_some'] at h
      obtain ⟨⟨i', n'⟩, hrec, heq⟩ := h
      simp only [Prod.mk.injEq] at heq
      obtain ⟨t', ht', hn'⟩ := ih nm i' n' hrec
      exact ⟨t', by simp [ht'], heq.2 ▸ hn'⟩

theorem allClear_mem {ts : List (List Node)} {t : List Node} {n : Node}
    (hc : allClear ts = true) (ht : t ∈ ts) (hn : n ∈ t) : n.waiting = false := by
  simp only [allClear, List.all_eq_true] at hc
  have h1 := hc t ht
  simp only [List.all_eq_true] at h1
  simpa using h1 n hn

theorem updateNode_twice (ts : List (List Node)) (i : Nat) (nm : String) (a b : Node)
    (ha : a.name = nm) :
    updateNode (updateNode ts i nm a) i nm b = updateNode ts i nm b := by
  induction ts generalizing i with
  | nil => rfl
  | cons t rest ih =>
    cases i with
    | zero =>
      simp only [updateNode, List.map_map, List.cons.injEq]
      refine ⟨List.map_congr_left ?_, trivial⟩
      intro x _
      by_cases hxn : x.name = nm
      · simp [Function.comp, hxn, ha]
      · simp [Function.comp, hxn]
    | succ i =>
      simp only [updateNode, List.cons.injEq]
      exact ⟨trivial, ih i⟩

theorem allClear_updateNode (ts : List (List Node)) (i : Nat) (nm : String) (b : Node)
    (hc : allClear ts = true) (hb : b.waiting = false) :
    allClear (updateNode ts i nm b) = true := by
  induction ts generalizing i with
  | nil => rfl
  | cons t rest ih =>
    simp only [allClear, List.all_cons, Bool.and_eq_true] at hc
    obtain ⟨h1, h2⟩ := hc
    cases i with
    | zero =>
      simp only [updateNode, allClear, List.all_cons, Bool.and_eq_true]
      refine ⟨?_, h2⟩
      rw [List.all_map]
      simp only [List.all_eq_true] at h1 ⊢
      intro x hx
      by_cases hxn : x.name = nm
      · simp [Function.comp, hxn, hb]
      · simp only [Function.comp, hxn, if_false]
        exact h1 x hx
    | succ i =>
      simp only [updateNode, allClear, List.all_cons, Bool.and_eq_true]
      have := ih i (by simpa [allClear] using h2)
      exact ⟨h1, by simpa [allClear] using this⟩

/-- `defaultCmd` from a state with no command outstanding: the instrumented
flag cannot fire (the resolved target's waiting flag is false on entry),
and afterwards either the broker is blocked inside `waitForNode` or once
again no endpoint has a command outstanding. -/
theorem defaultCmd_inv (sh : String → Bool) (st : BrokerSt) (line : String)
    (hc : allClear st.topos = true) (hs : st.sentWhileWaiting = false) :
    (defaultCmd sh st line).sentWhileWaiting = false ∧
    ((defaultCmd sh st line).stuck = true ∨
      allClear (defaultCmd sh st line).topos = true) := by
  unfold defaultCmd
  by_cases h0 : (parseline line).2 = ""
  · simp only [h0, if_true]
    exact ⟨hs, Or.inr hc⟩
  · simp only [h0, if_false]
    rcases hr : resolveAny st.topos ((parseline line).1.getD "None") with _ | ⟨i, node⟩
    · simp only [hr]
      exact ⟨hs, Or.inr hc⟩
    · simp only [hr]
      have hnw : node.waiting = false := by
        obtain ⟨t, ht, hnt⟩ := resolveAny_mem st.topos ((parseline line).1.getD "None") i node hr
        exact allClear_mem hc ht hnt
      refine ⟨by simp [hs, hnw], ?_⟩
      set sent : Node := { node with waiting := true } with hsent
      set r := waitForNode st.stdinIsTTY sent st.mode (popSupply st.pollSupply).1 with hrdef
      by_cases hstk : (st.stuck || r.stuck) = true
      · exact Or.inl (by simpa using hstk)
      · right
        simp only [Bool.or_eq_true, not_or, Bool.not_eq_true] at hstk
        have hrn : r.node.waiting = false :=
          waitForNode_not_stuck st.stdinIsTTY sent st.mode (popSupply st.pollSupply).1 hstk.2
        have htw : updateNode (updateNode st.topos i node.name sent) i node.name r.node =
            updateNode st.topos i node.name r.node :=
          updateNode_twice st.topos i node.name sent r.node rfl
        simpa [htw] using allClear_updateNode st.topos i node.name r.node hc hrn

/-- `do_noecho` preserves the invariant (its own effect is terminal-mode
and trace bookkeeping around a `defaultCmd` dispatch). -/
theorem do_noecho_inv (sh : String → Bool) (st : BrokerSt) (line : String)
    (hc : allClear st.topos = true) (hs : st.sentWhileWaiting = false) :
    (do_noecho sh st line).sentWhileWaiting = false ∧
    ((do_noecho sh st line).stuck = true ∨
      allClear (do_noecho sh st line).topos = true) := by
  unfold do_noecho
  simp only [pyTruthy, isattyGen, if_true]
  have h1 := defaultCmd_inv sh
    { st with mode := applyStty st.mode SttyCmd.noEcho,
              trace := st.trace ++ [Ev.stty SttyCmd.noEcho] } line hc hs
  exact h1

theorem runLines_inv (run : BrokerSt → String → BrokerSt × Bool)
    (hrun : ∀ st l, BrokerInv st → BrokerInv (run st l).1) :
    ∀ (ls : List String) (st : BrokerSt), BrokerInv st → BrokerInv (runLines run st ls) := by
  intro ls
  induction ls with
  | nil => intro st h; exact h
  | cons l ls ih =>
    intro st h
    rw [runLines]
    by_cases hs : st.stuck
    · simpa [hs] using h
    · simp only [hs, Bool.false_eq_true, if_false]
      by_cases hl : l.length > 0
      · simp only [hl, if_true]
        exact ih _ (hrun st l h)
      · simp only [hl, if_false]
        exact h

theorem onecmd_inv (sh : String → Bool) :
    ∀ (fuel : Nat) (st : BrokerSt) (line : String),
      BrokerInv st → BrokerInv (onecmd sh fuel st line).1 := by
  intro fuel
  induction fuel with
  | zero =>
    intro st line h
    exact ⟨h.1, Or.inl rfl⟩
  | succ f ih =>
    intro st line h
    obtain ⟨hs, hd⟩ := h
    rw [onecmd]
    by_cases hstuck : st.stuck
    · rw [if_pos hstuck]
      exact ⟨hs, hd⟩
    · have hc : allClear st.topos = true := by
        rcases hd with hd | hd
        · exact absurd hd (by simp [hstuck])
        · exact hd
      simp only [hstuck, Bool.false_eq_true, if_false]
      rcases hpl : parseline line with ⟨_ | c, rest⟩
      · exact ⟨hs, Or.inr hc⟩
      · by_cases h1 : c = "nodes"
        · simp only [h1, if_true]
          exact ⟨hs, Or.inr hc⟩
        · simp only [h1, if_false]
          by_cases h2 : c = "exit"
          · simp only [h2, if_true]
            exact ⟨hs, Or.inr hc⟩
          · simp only [h2, if_false]
            by_cases h3 : c = "quit"
            · simp only [h3, if_true]
              exact ⟨hs, Or.inr hc⟩
            · simp only [h3, if_false]
              by_cases h4 : c = "EOF"
              · simp only [h4, if_true]
                exact ⟨hs, Or.inr hc⟩
              · simp only [h4, if_false]
                by_cases h5 : c = "source"
                · simp only [h5, if_true]
                  cases ho : openScript st.files rest with
                  | error msg =>
                    simp only [ho]
                    exact ⟨hs, Or.inr hc⟩
                  | ok ls =>
                    simp only [ho]
                    exact runLines_inv _ (fun st' l' h' => ih st' l' h') ls st ⟨hs, Or.inr hc⟩
                · simp only [h5, if_false]
                  by_cases h6 : c = "noecho"
                  · simp only [h6, if_true]
                    exact do_noecho_inv sh st rest hc hs
                  · simp only [h6, if_false]
                    by_cases h7 : c = "time"
                    · simp only [h7, if_true]
                      have := ih st rest ⟨hs, Or.inr hc⟩
                      exact ⟨this.1, this.2⟩
                    · simp only [h7, if_false]
                      by_cases h8 : c ∈ builtinNames
                      · simp only [h8, if_true]
                        exact ⟨hs, Or.inr hc⟩
                      · simp only [h8, if_false]
                        exact defaultCmd_inv sh st line hc hs

theorem cmdloop_inv (sh : String → Bool) (fuel : Nat) :
    ∀ (ls : List String) (st : BrokerSt),
      BrokerInv st → BrokerInv (cmdloop sh fuel st ls) := by
  intro ls
  induction ls with
  | nil => intro st h; exact h
  | cons l ls ih =>
    intro st h
    rw [cmdloop]
    by_cases hs : st.stuck
    · simpa [hs] using h
    · simp only [hs, Bool.false_eq_true, if_false]
      by_cases hstop : (onecmd sh fuel st l).2
      · simp only [hstop, if_true]
        exact onecmd_inv sh fuel st l h
      · simp only [hstop, Bool.false_eq_true, if_false]
        exact ih _ (onecmd_inv sh fuel st l h)

/-!  ## Claim C1 — at most one outstanding command per endpoint -/

/-- Claim C1 counterexample: the claim is not unconditional.  With a script
passed at construction and an endpoint left waiting from a previous
session, `__init__` returns from `do_source` before the drain loop ever
runs, and `default` does not check the flag: the broker issues a `sendCmd`
on `h1` while `waiting(h1)` is true (the instrumented flag at the unique
`sendCmd` site fires, and the send appears in the trace). -/
theorem sendCmd_while_waiting_cex :
    (cliInit shFix 3 true [[h1WaitingFix]] [("s", ["h1 ping h2\n"])] [[peFix]]
        (some "s") []).sentWhileWaiting = true ∧
    Ev.sendCmd "h1" "ping h2" true ∈
      (cliInit shFix 3 true [[h1WaitingFix]] [("s", ["h1 ping h2\n"])] [[peFix]]
        (some "s") []).trace := by
  decide

/-- Claim C1 (amended): the broker never issues a send-command on an
endpoint whose waiting flag is true, provided the session does not start
dirty behind the drain's back: on the interactive path this holds
unconditionally (the startup drain clears every flag before the first
dispatch, or the broker blocks without dispatching anything), and on the
script path it holds whenever no endpoint has a command outstanding at
construction — the flag observed at the unique `sendCmd` site is false on
every dispatch, because the dispatch loop blocks in `waitForNode` until the
flag clears before any further line is processed.  (A dirty start combined
with a script violates the original claim: see the counterexample.) -/
theorem single_outstanding_per_endpoint (sh : String → Bool) (fuel : Nat) (tty : Bool)
    (topos : List (List Node)) (files : List (String × List String))
    (supply : List (List PollEv)) (script : Option String) (console : List String)
    (h : script = none ∨ allClear topos = true) :
    (cliInit sh fuel tty topos files supply script console).sentWhileWaiting = false := by
  unfold cliInit
  cases script with
  | some s =>
    have hc : allClear topos = true := by
      rcases h with h | h
      · exact absurd h (by simp)
      · exact h
    have h0 : BrokerInv (initialState tty topos files supply) := ⟨rfl, Or.inr hc⟩
    simp only
    unfold do_source
    cases ho : openScript (initialState tty topos files supply).files s with
    | error msg => simp only [ho]; rfl
    | ok ls =>
      simp only [ho]
      exact (runLines_inv _ (fun st' l' h' => onecmd_inv sh fuel st' l' h') ls _ h0).1
  | none =>
    simp only
    by_cases hd : (drainAll (initialState tty topos files supply)).stuck
    · simp only [hd, if_true]
      rfl
    · simp only [hd, Bool.false_eq_true, if_false]
      have hdinv : BrokerInv (drainAll (initialState tty topos files supply)) := by
        refine ⟨rfl, Or.inr ?_⟩
        have hstk : (drainTopos (initialState tty topos files supply).topos).stuck = false := by
          simp only [drainAll, initialState] at hd
          simpa [initialState] using hd
        simpa [drainAll] using drainTopos_clear _ hstk
      have hsinv : BrokerInv (sttySaneStep (drainAll (initialState tty topos files supply))) := by
        unfold sttySaneStep
        simp only [pyTruthy, isattyGen, if_true]
        exact hdinv
      exact (cmdloop_inv sh fuel console _ hsinv).1

/-- Witness for C1: the amended theorem applied at concrete inputs — a
clean-start interactive session, a DIRTY-start interactive session (the
drain handles it), and a clean-start script session; each ends with the
instrumented flag unfired. -/
theorem single_outstanding_per_endpoint_witness :
    (cliInit shFix 3 true [[h1Fix, h2Fix]] [] [[peFix]] none
        ["h1 ls"]).sentWhileWaiting = false ∧
    (cliInit shFix 3 true [[h1WaitingFix]] [] [[peFix]] none
        ["h1 ls"]).sentWhileWaiting = false ∧
    allClear [[h1Fix, h2Fix]] = true ∧
    (cliInit shFix 3 true [[h1Fix, h2Fix]] [("f", ["h1 ls\n"])] [[peFix]]
        (some "f") []).sentWhileWaiting = false :=
  ⟨single_outstanding_per_endpoint shFix 3 true [[h1Fix, h2Fix]] [] [[peFix]] none
     ["h1 ls"] (Or.inl rfl),
   single_outstanding_per_endpoint shFix 3 true [[h1WaitingFix]] [] [[peFix]] none
     ["h1 ls"] (Or.inl rfl),
   by decide,
   single_outstanding_per_endpoint shFix 3 true [[h1Fix, h2Fix]] [("f", ["h1 ls\n"])]
     [[peFix]] (some "f") [] (Or.inr (by decide))⟩
